import Mathlib

/-!
Shallow embedding of `src/main.rs` (rust_todo): the checklist model
(`TodoItem`, `TodoList` with its `ListState` selection) and the layout
computation of the `ui` function, together with theorems settling the
specification claims.

Machine integers (`usize`) are modelled as `Nat`; the overflow-checked
subtraction `len - 1` is made explicit, and a Rust panic (arithmetic
underflow, `Vec::remove` out of range) is an `Except.error`.
-/

deriving instance DecidableEq for Except

/-- Kinds of Rust panics reachable in the embedded code: `usize`
subtraction underflow (debug overflow checks), and `Vec::remove` called
with an index `>= len`. -/
inductive PanicKind where
  | subUnderflow
  | outOfRange
deriving DecidableEq, Repr

/-- Rust `usize` subtraction `a - b` with debug overflow checks:
panics (error) when `b > a`. -/
def checkedSub (a b : Nat) : Except PanicKind Nat :=
  if b ≤ a then .ok (a - b) else .error .subUnderflow

/-- The `selected` field of tui's `ListState` as used by the source
(`select` / `selected` are the only accesses). -/
structure ListState where
  selected : Option Nat
deriving DecidableEq, Repr

/-- `ListState::default()`: no selection. -/
def ListState.default : ListState := ⟨none⟩

/-- `struct TodoItem { is_done: bool, title: String }`. -/
structure TodoItem where
  is_done : Bool
  title : String
deriving DecidableEq, Repr

/-- `impl ToString for TodoItem`: `format!("[{}] {}", if self.is_done { " " } else { "x" }, self.title)`. -/
def TodoItem.toString (item : TodoItem) : String :=
  "[" ++ (if item.is_done then " " else "x") ++ "] " ++ item.title

/-- `struct TodoList { state: ListState, items: Vec<TodoItem> }`. -/
structure TodoList where
  state : ListState
  items : List TodoItem
deriving DecidableEq, Repr

/-- `TodoList::remove`: `self.items.remove(pos)`. `Vec::remove` panics
exactly when `pos >= self.items.len()`; otherwise it deletes the element
at `pos`. The `state` field is not touched. -/
def TodoList.remove (t : TodoList) (pos : Nat) : Except PanicKind TodoList :=
  if pos < t.items.length then
    .ok { t with items := t.items.eraseIdx pos }
  else
    .error .outOfRange

/-- `TodoList::add`: `self.items.push(item)`. -/
def TodoList.add (t : TodoList) (item : TodoItem) : TodoList :=
  { t with items := t.items ++ [item] }

/-- `TodoList::next`: on `Some(i)` computes `if i >= self.items.len() - 1 { 0 } else { i + 1 }`
(the subtraction `len - 1` panics when the list is empty); on `None`
selects `0`; then `self.state.select(Some(i))`. -/
def TodoList.next (t : TodoList) : Except PanicKind TodoList := do
  let i ← match t.state.selected with
    | some i => do
        let m ← checkedSub t.items.length 1
        pure (if m ≤ i then 0 else i + 1)
    | none => pure 0
  pure { t with state := { selected := some i } }

/-- `TodoList::previous`: on `Some(i)` computes `if i == 0 { self.items.len() - 1 } else { i - 1 }`
(the subtraction panics when the list is empty and `i == 0`); on `None`
selects `0`; then `self.state.select(Some(i))`. -/
def TodoList.previous (t : TodoList) : Except PanicKind TodoList := do
  let i ← match t.state.selected with
    | some i =>
        if i = 0 then checkedSub t.items.length 1
        else pure (i - 1)
    | none => pure 0
  pure { t with state := { selected := some i } }

/-- `TodoList::unselec`: `self.state.select(None)`. -/
def TodoList.unselec (t : TodoList) : TodoList :=
  { t with state := { selected := none } }

/-- Iterated `next`: apply `TodoList.next` `n` times, propagating panics. -/
def TodoList.nextN (t : TodoList) : Nat → Except PanicKind TodoList
  | 0 => .ok t
  | n + 1 => do
      let t' ← t.next
      t'.nextN n

/-- The documented model invariant: whenever a selection index is present
it is strictly below the number of entries (hence an empty list forces no
selection). -/
def TodoList.invHolds (t : TodoList) : Bool :=
  match t.state.selected with
  | some i => decide (i < t.items.length)
  | none => true

/-- `struct UiConfig { projects: bool, typebox: bool }`. -/
structure UiConfig where
  projects : Bool
  typebox : Bool
deriving DecidableEq, Repr

/-- A tui `Rect` (x, y, width, height), as computed by `Layout::split`. -/
structure Rect where
  x : Nat
  y : Nat
  width : Nat
  height : Nat
deriving DecidableEq, Repr

/-- Modelled from the spec: tui's `Rect::inner` for `Layout::margin(m)`
(the tui layout solver is an external collaborator, not code of this
repository). When a dimension cannot accommodate the margin on both
sides, the interior clamps to the zero rectangle. -/
def marginRect (m : Nat) (r : Rect) : Rect :=
  if r.width < 2 * m ∨ r.height < 2 * m then ⟨0, 0, 0, 0⟩
  else ⟨r.x + m, r.y + m, r.width - 2 * m, r.height - 2 * m⟩

/-- Modelled from the spec: a two-element vertical split
`[Percentage p, Percentage 100]` gives the first chunk `p`% of the
area's height and the second chunk the remainder. -/
def vsplit (p : Nat) (r : Rect) : Rect × Rect :=
  let h1 := r.height * p / 100
  (⟨r.x, r.y, r.width, h1⟩, ⟨r.x, r.y + h1, r.width, r.height - h1⟩)

/-- Modelled from the spec: a two-element horizontal split
`[Percentage p, Percentage 100]` gives the first chunk `p`% of the
area's width and the second chunk the remainder. -/
def hsplit (p : Nat) (r : Rect) : Rect × Rect :=
  let w1 := r.width * p / 100
  (⟨r.x, r.y, w1, r.height⟩, ⟨r.x + w1, r.y, r.width - w1, r.height⟩)

/-- The region tree produced by one frame: top-left (list), top-right
(projects panel), bottom (text box). -/
structure UiRegions where
  topLeft : Rect
  topRight : Rect
  bottom : Rect
deriving DecidableEq, Repr

/-- The layout computation of the `ui` function: a vertical split with
`margin(3)` and `Percentage(if config.typebox { 90 } else { 100 })` over
the full frame, then a horizontal split of the top chunk with
`Percentage(if config.projects { 80 } else { 100 })`. The percentage
split semantics itself is modelled from the spec (tui is external). -/
def uiLayout (w h : Nat) (config : UiConfig) : UiRegions :=
  let interior := marginRect 3 ⟨0, 0, w, h⟩
  let chunks := vsplit (if config.typebox then 90 else 100) interior
  let topChunks := hsplit (if config.projects then 80 else 100) chunks.1
  ⟨topChunks.1, topChunks.2, chunks.2⟩

/-!
Helper lemmas characterizing the navigation operations on well-formed
states. These are shared by several claim theorems.
-/

theorem TodoList.eq_mk_of_selected (t : TodoList) (o : Option Nat)
    (h : t.state.selected = o) : t = ⟨⟨o⟩, t.items⟩ := by
  cases t with
  | mk s it =>
    cases s with
    | mk sel =>
      subst h
      rfl

theorem TodoList.next_none (t : TodoList) (h : t.state.selected = none) :
    t.next = .ok ⟨⟨some 0⟩, t.items⟩ := by
  simp [TodoList.next, h, Pure.pure, Except.pure, Bind.bind, Except.bind]

theorem TodoList.previous_none (t : TodoList) (h : t.state.selected = none) :
    t.previous = .ok ⟨⟨some 0⟩, t.items⟩ := by
  simp [TodoList.previous, h, Pure.pure, Except.pure, Bind.bind, Except.bind]

theorem TodoList.next_some (t : TodoList) (i : Nat)
    (hsel : t.state.selected = some i) (hi : i < t.items.length) :
    t.next = .ok ⟨⟨some ((i + 1) % t.items.length)⟩, t.items⟩ := by
  have h1 : 1 ≤ t.items.length := by omega
  rcases Nat.lt_or_ge i (t.items.length - 1) with hlt | hge
  · have hc : ¬ (t.items.length - 1 ≤ i) := by omega
    have hmod : (i + 1) % t.items.length = i + 1 := Nat.mod_eq_of_lt (by omega)
    simp [TodoList.next, hsel, checkedSub, h1, hc, hmod]
  · have hc : t.items.length - 1 ≤ i := hge
    have hmod : (i + 1) % t.items.length = 0 := by
      have h2 : i + 1 = t.items.length := by omega
      simp [h2]
    simp [TodoList.next, hsel, checkedSub, h1, hc, hmod]

theorem TodoList.previous_some (t : TodoList) (i : Nat)
    (hsel : t.state.selected = some i) (hi : i < t.items.length) :
    t.previous
      = .ok ⟨⟨some (if i = 0 then t.items.length - 1 else i - 1)⟩, t.items⟩ := by
  have h1 : 1 ≤ t.items.length := by omega
  rcases Nat.eq_zero_or_pos i with hz | hp
  · simp [TodoList.previous, hsel, checkedSub, h1, hz]
  · have hnz : ¬ (i = 0) := by omega
    simp [TodoList.previous, hsel, hnz, Pure.pure, Except.pure, Bind.bind, Except.bind]

theorem TodoList.nextN_some (n : Nat) :
    ∀ (t : TodoList) (i : Nat), t.state.selected = some i → i < t.items.length →
      t.nextN n = .ok ⟨⟨some ((i + n) % t.items.length)⟩, t.items⟩ := by
  induction n with
  | zero =>
    intro t i hsel hi
    have ht := TodoList.eq_mk_of_selected t (some i) hsel
    have h0 : (i + 0) % t.items.length = i := by simp [Nat.mod_eq_of_lt hi]
    rw [h0]
    exact congrArg Except.ok ht
  | succ n ih =>
    intro t i hsel hi
    have hlen : 0 < t.items.length := by omega
    have hstep := TodoList.next_some t i hsel hi
    have hlt : (i + 1) % t.items.length < t.items.length := Nat.mod_lt _ hlen
    have ihh := ih ⟨⟨some ((i + 1) % t.items.length)⟩, t.items⟩
      ((i + 1) % t.items.length) rfl hlt
    have hmod : ((i + 1) % t.items.length + n) % t.items.length
        = (i + (n + 1)) % t.items.length := by
      have hadd : i + 1 + n = i + (n + 1) := by omega
      rw [Nat.mod_add_mod, hadd]
    simp only [TodoList.nextN, hstep, Bind.bind, Except.bind]
    rw [ihh, hmod]

/-!
Claim theorems.
-/

/-- Claim C1, counterexample to the claim as stated: a one-entry list
with index 0 selected satisfies the invariant, yet `remove 0` leaves the
selection at `some 0` over an empty entry list, violating it. -/
theorem claim_C1_counterexample :
    (TodoList.mk ⟨some 0⟩ [⟨false, "Hello world"⟩]).invHolds = true
    ∧ (TodoList.mk ⟨some 0⟩ [⟨false, "Hello world"⟩]).remove 0
        = .ok (TodoList.mk ⟨some 0⟩ [])
    ∧ (TodoList.mk ⟨some 0⟩ []).invHolds = false := by
  decide

/-- Claim C1, amended: `unselec` and `add` preserve the model invariant
unconditionally; `next` and `previous` preserve it whenever the entry
list is non-empty; `remove` preserves it only under the extra condition
that no selection is present or the selected index remains below the
shortened length (the selection is never cleared or shifted). -/
theorem claim_C1_amended (t : TodoList) (item : TodoItem) (pos : Nat) :
    (t.invHolds = true → (t.add item).invHolds = true)
    ∧ (t.unselec.invHolds = true)
    ∧ (∀ t', t.invHolds = true → t.items ≠ [] → t.next = .ok t' →
        t'.invHolds = true)
    ∧ (∀ t', t.invHolds = true → t.items ≠ [] → t.previous = .ok t' →
        t'.invHolds = true)
    ∧ (∀ t', t.invHolds = true →
        (∀ j, t.state.selected = some j → j + 1 < t.items.length) →
        t.remove pos = .ok t' → t'.invHolds = true) := by
  refine ⟨?_, ?_, ?_, ?_, ?_⟩
  · intro hinv
    cases hsel : t.state.selected with
    | none => simp [TodoList.invHolds, TodoList.add, hsel]
    | some i =>
      simp [TodoList.invHolds, TodoList.add, hsel] at hinv ⊢
      omega
  · simp [TodoList.invHolds, TodoList.unselec]
  · intro t' hinv hne hok
    have h0 : 0 < t.items.length := List.length_pos.mpr hne
    cases hsel : t.state.selected with
    | none =>
      rw [TodoList.next_none t hsel] at hok
      injection hok with h
      subst h
      simpa [TodoList.invHolds] using h0
    | some i =>
      have hi : i < t.items.length := by
        simpa [TodoList.invHolds, hsel] using hinv
      rw [TodoList.next_some t i hsel hi] at hok
      injection hok with h
      subst h
      simpa [TodoList.invHolds] using Nat.mod_lt (i + 1) h0
  · intro t' hinv hne hok
    have h0 : 0 < t.items.length := List.length_pos.mpr hne
    cases hsel : t.state.selected with
    | none =>
      rw [TodoList.previous_none t hsel] at hok
      injection hok with h
      subst h
      simpa [TodoList.invHolds] using h0
    | some i =>
      have hi : i < t.items.length := by
        simpa [TodoList.invHolds, hsel] using hinv
      rw [TodoList.previous_some t i hsel hi] at hok
      injection hok with h
      subst h
      simp only [TodoList.invHolds, decide_eq_true_eq]
      split <;> omega
  · intro t' hinv hj hok
    simp only [TodoList.remove] at hok
    split at hok
    case isTrue hpos =>
      injection hok with h
      subst h
      cases hsel : t.state.selected with
      | none => simp [TodoList.invHolds, hsel]
      | some j =>
        have hjj := hj j hsel
        have hlen2 := List.length_eraseIdx_add_one hpos
        simp only [TodoList.invHolds, hsel, decide_eq_true_eq]
        omega
    case isFalse => cases hok

/-- Claim C1 witness: the amended theorem applied at a concrete
three-entry list with index 0 selected. -/
theorem claim_C1_witness :
    ((TodoList.mk ⟨some 0⟩
        [⟨false, "a"⟩, ⟨true, "b"⟩, ⟨true, "c"⟩]).add ⟨true, "d"⟩).invHolds = true
    ∧ (TodoList.mk ⟨some 0⟩
        [⟨false, "a"⟩, ⟨true, "b"⟩, ⟨true, "c"⟩]).unselec.invHolds = true
    ∧ (TodoList.mk ⟨some 1⟩
        [⟨false, "a"⟩, ⟨true, "b"⟩, ⟨true, "c"⟩]).invHolds = true
    ∧ (TodoList.mk ⟨some 2⟩
        [⟨false, "a"⟩, ⟨true, "b"⟩, ⟨true, "c"⟩]).invHolds = true
    ∧ (TodoList.mk ⟨some 0⟩ [⟨false, "a"⟩, ⟨true, "b"⟩]).invHolds = true := by
  obtain ⟨h1, h2, h3, h4, h5⟩ := claim_C1_amended
    (TodoList.mk ⟨some 0⟩ [⟨false, "a"⟩, ⟨true, "b"⟩, ⟨true, "c"⟩]) ⟨true, "d"⟩ 2
  refine ⟨h1 (by decide), h2, ?_, ?_, ?_⟩
  · exact h3 (TodoList.mk ⟨some 1⟩ [⟨false, "a"⟩, ⟨true, "b"⟩, ⟨true, "c"⟩])
      (by decide) (by decide) (by decide)
  · exact h4 (TodoList.mk ⟨some 2⟩ [⟨false, "a"⟩, ⟨true, "b"⟩, ⟨true, "c"⟩])
      (by decide) (by decide) (by decide)
  · refine h5 (TodoList.mk ⟨some 0⟩ [⟨false, "a"⟩, ⟨true, "b"⟩]) (by decide)
      ?_ (by decide)
    intro j hj
    injection hj with h
    subst h
    decide

/-- Claim C2, counterexample to the claim as stated: on an empty entry
list with no selection, `next` is not a no-op — it sets the selection to
index 0. -/
theorem claim_C2_counterexample :
    (TodoList.mk ⟨none⟩ ([] : List TodoItem)).next
      = .ok (TodoList.mk ⟨some 0⟩ [])
    ∧ (TodoList.mk ⟨some 0⟩ ([] : List TodoItem)).state.selected ≠ none := by
  decide

/-- Claim C2, amended: with an empty entry list, `next` and `previous`
from no selection succeed but set the selection to index 0 (not a
no-op); from a present selection, `next` always panics on the `len - 1`
underflow, and `previous` panics when the selected index is 0 and
otherwise moves to index `i - 1`. -/
theorem claim_C2_amended (t : TodoList) (h : t.items = []) :
    (t.state.selected = none →
      t.next = .ok ⟨⟨some 0⟩, t.items⟩ ∧ t.previous = .ok ⟨⟨some 0⟩, t.items⟩)
    ∧ (∀ i, t.state.selected = some i → t.next = .error .subUnderflow)
    ∧ (t.state.selected = some 0 → t.previous = .error .subUnderflow)
    ∧ (∀ i, t.state.selected = some (i + 1) →
        t.previous = .ok ⟨⟨some i⟩, t.items⟩) := by
  have hlen : t.items.length = 0 := by simp [h]
  refine ⟨?_, ?_, ?_, ?_⟩
  · intro hsel
    exact ⟨TodoList.next_none t hsel, TodoList.previous_none t hsel⟩
  · intro i hsel
    simp [TodoList.next, hsel, checkedSub, hlen, Bind.bind, Except.bind]
  · intro hsel
    simp [TodoList.previous, hsel, checkedSub, hlen, Bind.bind, Except.bind]
  · intro i hsel
    simp [TodoList.previous, hsel, Pure.pure, Except.pure, Bind.bind,
      Except.bind]

/-- Claim C2 witness: the amended theorem applied on the empty list at
each selection shape. -/
theorem claim_C2_witness :
    ((TodoList.mk ⟨none⟩ ([] : List TodoItem)).next
        = .ok (TodoList.mk ⟨some 0⟩ [])
      ∧ (TodoList.mk ⟨none⟩ ([] : List TodoItem)).previous
        = .ok (TodoList.mk ⟨some 0⟩ []))
    ∧ (TodoList.mk ⟨some 2⟩ ([] : List TodoItem)).next = .error .subUnderflow
    ∧ (TodoList.mk ⟨some 0⟩ ([] : List TodoItem)).previous
        = .error .subUnderflow
    ∧ (TodoList.mk ⟨some 3⟩ ([] : List TodoItem)).previous
        = .ok (TodoList.mk ⟨some 2⟩ []) := by
  refine ⟨?_, ?_, ?_, ?_⟩
  · exact (claim_C2_amended (TodoList.mk ⟨none⟩ []) rfl).1 rfl
  · exact (claim_C2_amended (TodoList.mk ⟨some 2⟩ []) rfl).2.1 2 rfl
  · exact (claim_C2_amended (TodoList.mk ⟨some 0⟩ []) rfl).2.2.1 rfl
  · exact (claim_C2_amended (TodoList.mk ⟨some 3⟩ []) rfl).2.2.2 2 rfl

/-- Claim C3, counterexample to the claim as stated: removing the
currently selected position 0 does not clear the selection — it stays at
`some 0`. -/
theorem claim_C3_counterexample :
    (TodoList.mk ⟨some 0⟩
        [⟨false, "Hello world"⟩, ⟨true, "Hello again"⟩]).remove 0
      = .ok (TodoList.mk ⟨some 0⟩ [⟨true, "Hello again"⟩])
    ∧ (TodoList.mk ⟨some 0⟩ [⟨true, "Hello again"⟩]).state.selected ≠ none := by
  decide

/-- Claim C3, amended: for every valid position, `remove` mutates only
the entry list; the selection is left exactly as it was, whether the
removed position equals, precedes, or follows the selected index. -/
theorem claim_C3_amended (t t' : TodoList) (pos : Nat)
    (h : t.remove pos = .ok t') :
    t'.state = t.state ∧ t'.items = t.items.eraseIdx pos := by
  simp only [TodoList.remove] at h
  split at h
  · injection h with h2
    subst h2
    exact ⟨rfl, rfl⟩
  · cases h

/-- Claim C3 witness: the amended theorem applied to a concrete removal
at the selected position. -/
theorem claim_C3_witness :
    (TodoList.mk ⟨some 1⟩ [⟨false, "a"⟩, ⟨true, "c"⟩]).state
        = (TodoList.mk ⟨some 1⟩ [⟨false, "a"⟩, ⟨true, "b"⟩, ⟨true, "c"⟩]).state
    ∧ (TodoList.mk ⟨some 1⟩ [⟨false, "a"⟩, ⟨true, "c"⟩]).items
        = (TodoList.mk ⟨some 1⟩
            [⟨false, "a"⟩, ⟨true, "b"⟩, ⟨true, "c"⟩]).items.eraseIdx 1 :=
  claim_C3_amended
    (TodoList.mk ⟨some 1⟩ [⟨false, "a"⟩, ⟨true, "b"⟩, ⟨true, "c"⟩])
    (TodoList.mk ⟨some 1⟩ [⟨false, "a"⟩, ⟨true, "c"⟩]) 1 (by decide)

/-- Claim C4: `remove pos` fails with the out-of-range panic exactly
when `pos ≥ entries.length`; any failure is that panic (state untouched,
since the check precedes the mutation); on a valid position it succeeds
and only shortens the entry list. -/
theorem claim_C4 (t : TodoList) (pos : Nat) :
    (t.remove pos = .error .outOfRange ↔ t.items.length ≤ pos)
    ∧ (∀ e, t.remove pos = .error e → e = .outOfRange)
    ∧ (pos < t.items.length →
        t.remove pos = .ok ⟨t.state, t.items.eraseIdx pos⟩) := by
  refine ⟨⟨?_, ?_⟩, ?_, ?_⟩
  · intro h
    by_contra hc
    have hlt : pos < t.items.length := by omega
    simp [TodoList.remove, hlt] at h
  · intro h
    have hc : ¬ pos < t.items.length := by omega
    simp [TodoList.remove, hc]
  · intro e h
    simp only [TodoList.remove] at h
    split at h
    · cases h
    · injection h with h2
      exact h2.symm
  · intro h
    simp only [TodoList.remove, if_pos h]

/-- Claim C4 witness: the theorem applied at an out-of-range position
and at a valid position of a one-entry list. -/
theorem claim_C4_witness :
    (TodoList.mk ⟨none⟩ [⟨false, "a"⟩]).remove 5 = .error .outOfRange
    ∧ (TodoList.mk ⟨none⟩ [⟨false, "a"⟩]).remove 0
        = .ok (TodoList.mk ⟨none⟩ []) := by
  obtain ⟨h1, _, _⟩ := claim_C4 (TodoList.mk ⟨none⟩ [⟨false, "a"⟩]) 5
  obtain ⟨_, _, g3⟩ := claim_C4 (TodoList.mk ⟨none⟩ [⟨false, "a"⟩]) 0
  exact ⟨h1.mpr (by decide), g3 (by decide)⟩

/-- Claim C5, counterexample to the claim as stated: on a one-entry list
starting from no selection, one application of `next` yields selection
index 0, not the original "none" state. -/
theorem claim_C5_counterexample :
    (TodoList.mk ⟨none⟩ [⟨false, "Hello world"⟩]).nextN 1
      = .ok (TodoList.mk ⟨some 0⟩ [⟨false, "Hello world"⟩])
    ∧ TodoList.mk ⟨some 0⟩ [⟨false, "Hello world"⟩]
        ≠ TodoList.mk ⟨none⟩ [⟨false, "Hello world"⟩] := by
  decide

/-- Claim C5, amended: for every non-empty list of length N and every
starting state whose selection is present (an index `i < N`), applying
`next` N times returns to the original state; from "none" the cycle is
broken, since the first step enters the cycle at index 0. -/
theorem claim_C5_amended (t : TodoList) (i : Nat)
    (hsel : t.state.selected = some i) (hi : i < t.items.length) :
    t.nextN t.items.length = .ok t := by
  have h := TodoList.nextN_some t.items.length t i hsel hi
  have hmod : (i + t.items.length) % t.items.length = i := by
    rw [Nat.add_mod_right]
    exact Nat.mod_eq_of_lt hi
  rw [h, hmod]
  exact congrArg Except.ok (TodoList.eq_mk_of_selected t (some i) hsel).symm

/-- Claim C5 witness: three applications of `next` on a three-entry list
with index 1 selected return to the original state. -/
theorem claim_C5_witness :
    (TodoList.mk ⟨some 1⟩ [⟨false, "a"⟩, ⟨true, "b"⟩, ⟨true, "c"⟩]).nextN
        (TodoList.mk ⟨some 1⟩
          [⟨false, "a"⟩, ⟨true, "b"⟩, ⟨true, "c"⟩]).items.length
      = .ok (TodoList.mk ⟨some 1⟩ [⟨false, "a"⟩, ⟨true, "b"⟩, ⟨true, "c"⟩]) :=
  claim_C5_amended
    (TodoList.mk ⟨some 1⟩ [⟨false, "a"⟩, ⟨true, "b"⟩, ⟨true, "c"⟩]) 1 rfl
    (by decide)

/-- Claim C6, counterexample to the claim as stated: from the starting
state "none" on a one-entry list, `next` then `previous` ends at
selection index 0, not back at "none". -/
theorem claim_C6_counterexample :
    ((TodoList.mk ⟨none⟩ [⟨false, "Hello world"⟩]).next
        >>= TodoList.previous)
      = .ok (TodoList.mk ⟨some 0⟩ [⟨false, "Hello world"⟩])
    ∧ TodoList.mk ⟨some 0⟩ [⟨false, "Hello world"⟩]
        ≠ TodoList.mk ⟨none⟩ [⟨false, "Hello world"⟩] := by
  decide

/-- Claim C6, amended: for every list of length N ≥ 1 and every starting
state with a selected index `i < N`, `next` then `previous` (and
likewise `previous` then `next`) returns the selection to the original
index; from "none" both composites end at a present selection instead. -/
theorem claim_C6_amended (t : TodoList) (i : Nat)
    (hsel : t.state.selected = some i) (hi : i < t.items.length) :
    (t.next >>= TodoList.previous) = .ok t
    ∧ (t.previous >>= TodoList.next) = .ok t := by
  cases t with
  | mk s items =>
    cases s with
    | mk sel =>
      replace hsel : sel = some i := hsel
      replace hi : i < items.length := hi
      subst hsel
      have h1 : 1 ≤ items.length := by omega
      constructor
      · by_cases hc : items.length - 1 ≤ i
        · have hieq : i = items.length - 1 := by
            simp only at hi
            omega
          simp [TodoList.next, TodoList.previous, checkedSub, h1, hc,
            Bind.bind, Except.bind, Pure.pure, Except.pure]
          omega
        · simp [TodoList.next, TodoList.previous, checkedSub, h1, hc,
            Bind.bind, Except.bind, Pure.pure, Except.pure]
      · by_cases hz : i = 0
        · subst hz
          have hc : items.length - 1 ≤ items.length - 1 := le_refl _
          simp [TodoList.previous, TodoList.next, checkedSub, h1, hc,
            Bind.bind, Except.bind, Pure.pure, Except.pure]
        · have hc : ¬ (items.length - 1 ≤ i - 1) := by
            simp only at hi
            omega
          simp [TodoList.previous, TodoList.next, checkedSub, h1, hz, hc,
            Bind.bind, Except.bind, Pure.pure, Except.pure]
          omega

/-- Claim C6 witness: both composites applied on a two-entry list with
index 1 selected. -/
theorem claim_C6_witness :
    ((TodoList.mk ⟨some 1⟩ [⟨false, "a"⟩, ⟨true, "b"⟩]).next
        >>= TodoList.previous)
      = .ok (TodoList.mk ⟨some 1⟩ [⟨false, "a"⟩, ⟨true, "b"⟩])
    ∧ ((TodoList.mk ⟨some 1⟩ [⟨false, "a"⟩, ⟨true, "b"⟩]).previous
        >>= TodoList.next)
      = .ok (TodoList.mk ⟨some 1⟩ [⟨false, "a"⟩, ⟨true, "b"⟩]) :=
  claim_C6_amended (TodoList.mk ⟨some 1⟩ [⟨false, "a"⟩, ⟨true, "b"⟩]) 1 rfl
    (by decide)

/-- Claim C7: on a non-empty list, `previous` at selected index 0 wraps
to index N-1, and `next` at selected index N-1 wraps to index 0. -/
theorem claim_C7 (t : TodoList) (h : 0 < t.items.length) :
    (t.state.selected = some 0 →
      t.previous = .ok ⟨⟨some (t.items.length - 1)⟩, t.items⟩)
    ∧ (t.state.selected = some (t.items.length - 1) →
      t.next = .ok ⟨⟨some 0⟩, t.items⟩) := by
  constructor
  · intro hsel
    have hp := TodoList.previous_some t 0 hsel h
    simpa using hp
  · intro hsel
    have hi : t.items.length - 1 < t.items.length := by omega
    have hn := TodoList.next_some t (t.items.length - 1) hsel hi
    have hm : (t.items.length - 1 + 1) % t.items.length = 0 := by
      have he : t.items.length - 1 + 1 = t.items.length := by omega
      rw [he, Nat.mod_self]
    rw [hn, hm]

/-- Claim C7 witness: the wrap-around at both ends of a two-entry
list. -/
theorem claim_C7_witness :
    (TodoList.mk ⟨some 0⟩ [⟨false, "a"⟩, ⟨true, "b"⟩]).previous
      = .ok (TodoList.mk ⟨some 1⟩ [⟨false, "a"⟩, ⟨true, "b"⟩])
    ∧ (TodoList.mk ⟨some 1⟩ [⟨false, "a"⟩, ⟨true, "b"⟩]).next
      = .ok (TodoList.mk ⟨some 0⟩ [⟨false, "a"⟩, ⟨true, "b"⟩]) := by
  refine ⟨?_, ?_⟩
  · exact (claim_C7 (TodoList.mk ⟨some 0⟩ [⟨false, "a"⟩, ⟨true, "b"⟩])
      (by decide)).1 rfl
  · exact (claim_C7 (TodoList.mk ⟨some 1⟩ [⟨false, "a"⟩, ⟨true, "b"⟩])
      (by decide)).2 rfl

/-- Claim C8: with the terminal at least as large as the margins, the
layout reserves a margin of 3 cells on every side, gives the top region
90% of the interior height when `typebox` is set and 100% otherwise
(degenerate bottom region), gives the left sub-region 80% of the top
width when `projects` is set and 100% otherwise (degenerate right
sub-region), and is deterministic in its inputs. -/
theorem claim_C8 (w h : Nat) (config : UiConfig) (hw : 6 ≤ w) (hh : 6 ≤ h) :
    (uiLayout w h config).topLeft.x = 3
    ∧ (uiLayout w h config).topLeft.y = 3
    ∧ (uiLayout w h config).topLeft.height
        = (h - 6) * (if config.typebox then 90 else 100) / 100
    ∧ (config.typebox = false →
        (uiLayout w h config).topLeft.height = h - 6
        ∧ (uiLayout w h config).bottom.height = 0)
    ∧ (uiLayout w h config).topLeft.width
        = (w - 6) * (if config.projects then 80 else 100) / 100
    ∧ (config.projects = false →
        (uiLayout w h config).topLeft.width = w - 6
        ∧ (uiLayout w h config).topRight.width = 0)
    ∧ uiLayout w h config = uiLayout w h config := by
  have h100 : ∀ a : Nat, a * 100 / 100 = a := fun a =>
    Nat.mul_div_cancel a (by norm_num)
  obtain ⟨p, tb⟩ := config
  have hwc : ¬ (w < 2 * 3 ∨ h < 2 * 3) := by omega
  cases p <;> cases tb <;>
    simp [uiLayout, marginRect, vsplit, hsplit, hwc, h100]

/-- Claim C8 witness: the theorem applied at a concrete 80×40 terminal
with both toggles set. -/
theorem claim_C8_witness :
    (uiLayout 80 40 ⟨true, true⟩).topLeft.x = 3
    ∧ (uiLayout 80 40 ⟨true, true⟩).topLeft.y = 3
    ∧ (uiLayout 80 40 ⟨true, true⟩).topLeft.height
        = (40 - 6) * (if (UiConfig.mk true true).typebox then 90 else 100) / 100
    ∧ ((UiConfig.mk true true).typebox = false →
        (uiLayout 80 40 ⟨true, true⟩).topLeft.height = 40 - 6
        ∧ (uiLayout 80 40 ⟨true, true⟩).bottom.height = 0)
    ∧ (uiLayout 80 40 ⟨true, true⟩).topLeft.width
        = (80 - 6) * (if (UiConfig.mk true true).projects then 80 else 100) / 100
    ∧ ((UiConfig.mk true true).projects = false →
        (uiLayout 80 40 ⟨true, true⟩).topLeft.width = 80 - 6
        ∧ (uiLayout 80 40 ⟨true, true⟩).topRight.width = 0)
    ∧ uiLayout 80 40 ⟨true, true⟩ = uiLayout 80 40 ⟨true, true⟩ :=
  claim_C8 80 40 ⟨true, true⟩ (by decide) (by decide)

/-- Claim C9, counterexample to the claim as stated: the status marker
preceding the title is not two characters wide; a done entry with an
empty title renders as the four-character string "[ ] ". -/
theorem claim_C9_counterexample :
    TodoItem.toString ⟨true, ""⟩ = "[ ] "
    ∧ (TodoItem.toString ⟨true, ""⟩).length ≠ 2 + ("" : String).length := by
  decide

/-- Claim C9, amended: every entry renders as a fixed four-character
status prefix followed by the title verbatim (embedded newlines
preserved); the mapping is the inverted one preserved literally — a done
entry renders the blank marker "[ ] " and a not-done entry renders the
"x" marker "[x] ". -/
theorem claim_C9_amended (e : TodoItem) :
    TodoItem.toString e = (if e.is_done then "[ ] " else "[x] ") ++ e.title
    ∧ (if e.is_done then "[ ] " else ("[x] " : String)).length = 4 := by
  obtain ⟨d, title⟩ := e
  cases d
  · constructor
    · show ("[" ++ "x" ++ "] ") ++ title = "[x] " ++ title
      have hx : ("[" ++ "x" ++ "] ") = "[x] " := by decide
      rw [hx]
    · show ("[x] " : String).length = 4
      decide
  · constructor
    · show ("[" ++ " " ++ "] ") ++ title = "[ ] " ++ title
      have hx : ("[" ++ " " ++ "] ") = "[ ] " := by decide
      rw [hx]
    · show ("[ ] " : String).length = 4
      decide

/-- Claim C10: for every valid position, `remove` succeeds and mutates
only the entry list; the selection state field is returned exactly as it
was, including when the removed position equals the selected index. -/
theorem claim_C10 (t : TodoList) (pos : Nat) (h : pos < t.items.length) :
    t.remove pos = .ok ⟨t.state, t.items.eraseIdx pos⟩ := by
  simp only [TodoList.remove, if_pos h]

/-- Claim C10 witness: removing position 1 while index 1 is selected
keeps the selection at `some 1`. -/
theorem claim_C10_witness :
    (TodoList.mk ⟨some 1⟩ [⟨false, "a"⟩, ⟨true, "b"⟩, ⟨true, "c"⟩]).remove 1
      = .ok (TodoList.mk ⟨some 1⟩ [⟨false, "a"⟩, ⟨true, "c"⟩]) :=
  claim_C10
    (TodoList.mk ⟨some 1⟩ [⟨false, "a"⟩, ⟨true, "b"⟩, ⟨true, "c"⟩]) 1
    (by decide)
